import Mathlib

/-
Verification of the Video-Processor service's quota ledger, video lifecycle
and delivery logic, as a shallow embedding of the TypeScript sources.

Conventions of the embedding:
  - JavaScript numbers and Prisma BigInt columns holding counters and byte
    sizes are modelled as Int (all arithmetic the claims touch is exact
    integer arithmetic in the source).
  - The float-valued minutesProcessed accumulator is modelled over the
    rationals; no claim depends on float rounding.
  - Database reads are passed in as values: a findUnique result becomes an
    Option argument, a table becomes a List, and the per-organization,
    per-month usage row returned by getOrCreateUsage becomes a Usage value.
  - Express responses are modelled as records of status code and the headers
    and body facts the claims mention.
-/

namespace VideoProc

/-- An organization row as read by findUnique: the quota code only consumes
its plan string. -/
structure Organization where
  id : String
  plan : String
deriving DecidableEq, Repr

/-- The per-organization, per-month usage row (model of the Prisma Usage
record returned by UsageService.getOrCreateUsage). -/
structure Usage where
  videosUploaded : Int
  minutesProcessed : ℚ
  storageUsed : Int
  apiCalls : Int
deriving DecidableEq, Repr

/-- Result shape of the quota checks: `{ allowed: boolean; reason?: string }`. -/
structure CheckResult where
  allowed : Bool
  reason : Option String
deriving DecidableEq, Repr

/-- Numeric limits row of the hard-coded PLAN_LIMITS table in
src/services/usage.service.ts. -/
structure UsageLimits where
  videosPerMonth : Int
  minutesPerMonth : Int
  storageGB : Int
  apiCallsPerMonth : Int
deriving DecidableEq, Repr

/-- The PLAN_LIMITS table of usage.service.ts; indexing a key absent from the
table yields none (the TS code then takes the invalid-plan branch). -/
def PLAN_LIMITS : String → Option UsageLimits
  | "free" => some { videosPerMonth := 10, minutesPerMonth := 60, storageGB := 5, apiCallsPerMonth := 1000 }
  | "starter" => some { videosPerMonth := 100, minutesPerMonth := 600, storageGB := 50, apiCallsPerMonth := 10000 }
  | "pro" => some { videosPerMonth := 1000, minutesPerMonth := 6000, storageGB := 500, apiCallsPerMonth := 100000 }
  | "enterprise" => some { videosPerMonth := -1, minutesPerMonth := -1, storageGB := -1, apiCallsPerMonth := -1 }
  | _ => none

/-- Numeric part of a catalog plan's limits structure in src/config/plans.ts. -/
structure CatalogLimits where
  videosPerMonth : Int
  minutesPerMonth : Int
  storageGB : Int
  apiCallsPerMonth : Int
  maxTeamMembers : Int
  maxResolutions : List String
  supportLevel : String
deriving DecidableEq, Repr

/-- A catalog entry of the PLANS record in src/config/plans.ts (features list
elided: it is display copy the claims never touch). -/
structure Plan where
  id : String
  name : String
  price : Int
  limits : CatalogLimits
deriving DecidableEq, Repr

/-- The billing plan catalog PLANS of src/config/plans.ts. -/
def PLANS : String → Option Plan
  | "free" => some
      { id := "free", name := "Free", price := 0,
        limits := { videosPerMonth := 10, minutesPerMonth := 30, storageGB := 5, apiCallsPerMonth := 1000,
                    maxTeamMembers := 1, maxResolutions := ["480p", "720p"], supportLevel := "community" } }
  | "starter" => some
      { id := "starter", name := "Starter", price := 29,
        limits := { videosPerMonth := 50, minutesPerMonth := 150, storageGB := 25, apiCallsPerMonth := 10000,
                    maxTeamMembers := 3, maxResolutions := ["480p", "720p", "1080p"], supportLevel := "email" } }
  | "pro" => some
      { id := "pro", name := "Pro", price := 99,
        limits := { videosPerMonth := 200, minutesPerMonth := 600, storageGB := 100, apiCallsPerMonth := 50000,
                    maxTeamMembers := 10, maxResolutions := ["480p", "720p", "1080p", "4K"], supportLevel := "priority" } }
  | "enterprise" => some
      { id := "enterprise", name := "Enterprise", price := 299,
        limits := { videosPerMonth := -1, minutesPerMonth := -1, storageGB := 500, apiCallsPerMonth := -1,
                    maxTeamMembers := -1, maxResolutions := ["480p", "720p", "1080p", "4K", "8K"], supportLevel := "dedicated" } }
  | _ => none

namespace UsageService

/-- UsageService.canUploadVideo. The org argument is the result of the prisma
findUnique on the organization id; the usage argument is the row returned by
getOrCreateUsage for the current month. -/
def canUploadVideo (org : Option Organization) (usage : Usage) : CheckResult :=
  match org with
  | none => { allowed := false, reason := some "Organization not found" }
  | some o =>
    match PLAN_LIMITS o.plan with
    | none => { allowed := false, reason := some "Invalid plan" }
    | some limits =>
      if limits.videosPerMonth = -1 then
        { allowed := true, reason := none }
      else if usage.videosUploaded ≥ limits.videosPerMonth then
        { allowed := false,
          reason := some ("Monthly video upload limit reached (" ++ toString limits.videosPerMonth ++ " videos)") }
      else
        { allowed := true, reason := none }

/-- UsageService.hasStorageCapacity. maxStorageBytes is
BigInt(limits.storageGB) * BigInt(1024*1024*1024). -/
def hasStorageCapacity (org : Option Organization) (usage : Usage) (additionalBytes : Int) : CheckResult :=
  match org with
  | none => { allowed := false, reason := some "Organization not found" }
  | some o =>
    match PLAN_LIMITS o.plan with
    | none => { allowed := false, reason := some "Invalid plan" }
    | some limits =>
      if limits.storageGB = -1 then
        { allowed := true, reason := none }
      else
        let maxStorageBytes := limits.storageGB * (1024 * 1024 * 1024)
        let newTotal := usage.storageUsed + additionalBytes
        if newTotal > maxStorageBytes then
          { allowed := false, reason := some ("Storage limit exceeded (" ++ toString limits.storageGB ++ "GB)") }
        else
          { allowed := true, reason := none }

/-- UsageService.trackVideoUpload: increments videosUploaded by 1, storageUsed
by fileSize, and minutesProcessed by duration/60 when a truthy duration is
passed (the TS guard `duration ? ... : undefined` skips the increment both
when the argument is omitted and when it is 0). -/
def trackVideoUpload (u : Usage) (fileSize : Int) (duration : Option ℚ) : Usage :=
  { u with
    videosUploaded := u.videosUploaded + 1,
    storageUsed := u.storageUsed + fileSize,
    minutesProcessed :=
      match duration with
      | some d => if d = 0 then u.minutesProcessed else u.minutesProcessed + d / 60
      | none => u.minutesProcessed }

/-- UsageService.trackVideoDeletion: a bare Prisma decrement of storageUsed,
with no clamping at zero. -/
def trackVideoDeletion (u : Usage) (fileSize : Int) : Usage :=
  { u with storageUsed := u.storageUsed - fileSize }

end UsageService

/-- A Video row (the columns the verified endpoints consume). -/
structure Video where
  id : String
  organizationId : String
  filePath : String
  fileSize : Int
  mimeType : Option String
  status : String
  hlsPlaylistPath : Option String
deriving DecidableEq, Repr

/-- A TranscodedVideo row, unique on the (videoId, resolution) pair. -/
structure TranscodedVideo where
  videoId : String
  resolution : String
  filePath : String
  fileSize : Int
  status : String
  codec : Option String
  bitrate : Option Int
deriving DecidableEq, Repr

/-- The slice of database state the video endpoints read and write; usage is
the requesting organization's current-month usage row. -/
structure DB where
  videos : List Video
  transcoded : List TranscodedVideo
  usage : Usage
deriving DecidableEq, Repr

namespace VideoController

/-- The prisma findFirst with `where: \x7b id, organizationId \x7d` used by the
detail, delete, stream, thumbnail and download endpoints: every lookup is
filtered by the caller's organization id. -/
def findFirstVideo (db : DB) (organizationId id : String) : Option Video :=
  db.videos.find? (fun v => v.id == id && v.organizationId == organizationId)

/-- Observable outcome of one call to VideoController.uploadVideo. -/
structure UploadOutcome where
  status : Nat
  errorMsg : Option String
  tempFileDeleted : Bool
  videoCreated : Bool
  usage : Usage
deriving DecidableEq, Repr

/-- VideoController.uploadVideo, up to the (fire-and-forget) processing kick.
hasFile models `req.file` being present, organizationId models
`req.organizationId`, org is the organization row the quota checks read, usage
the current-month usage row, size the uploaded file's byte size. -/
def uploadVideo (hasFile : Bool) (organizationId : Option String)
    (org : Option Organization) (usage : Usage) (size : Int) : UploadOutcome :=
  if !hasFile then
    { status := 400, errorMsg := some "No file uploaded",
      tempFileDeleted := false, videoCreated := false, usage := usage }
  else
    match organizationId with
    | none =>
      { status := 401, errorMsg := some "Organization not authenticated",
        tempFileDeleted := false, videoCreated := false, usage := usage }
    | some _ =>
      let canUpload := UsageService.canUploadVideo org usage
      if !canUpload.allowed then
        { status := 429, errorMsg := canUpload.reason,
          tempFileDeleted := true, videoCreated := false, usage := usage }
      else
        let hasStorage := UsageService.hasStorageCapacity org usage size
        if !hasStorage.allowed then
          { status := 429, errorMsg := hasStorage.reason,
            tempFileDeleted := true, videoCreated := false, usage := usage }
        else
          { status := 201, errorMsg := none,
            tempFileDeleted := false, videoCreated := true,
            usage := UsageService.trackVideoUpload usage size none }

/-- VideoController.getVideoById: the org-scoped findFirst; none models the
404 "Video not found" response. -/
def getVideoById (db : DB) (organizationId id : String) : Option Video :=
  findFirstVideo db organizationId id

/-- HTTP status of the video-detail response. -/
def getVideoByIdStatus (db : DB) (organizationId id : String) : Nat :=
  match getVideoById db organizationId id with
  | none => 404
  | some _ => 200

/-- VideoController.deleteVideo: org-scoped findFirst; on a hit, sums the
original file size and all transcoded sizes, deletes the Video row (Prisma
cascade removes the TranscodedVideo rows referencing it) and decrements the
organization's storage by the total. Returns the new DB state and HTTP
status. -/
def deleteVideo (db : DB) (organizationId id : String) : DB × Nat :=
  match findFirstVideo db organizationId id with
  | none => (db, 404)
  | some video =>
    let transcodedVideos := db.transcoded.filter (fun tv => tv.videoId == video.id)
    let totalSize := video.fileSize + (transcodedVideos.map (fun tv => tv.fileSize)).sum
    ({ videos := db.videos.filter (fun v => !(v.id == id)),
       transcoded := db.transcoded.filter (fun tv => !(tv.videoId == id)),
       usage := UsageService.trackVideoDeletion db.usage totalSize }, 200)

end VideoController

/-- First-occurrence substring removal, modelling the JavaScript
`s.replace(/bytes=/, "")` call (a non-global regex replaces only the first
occurrence of the literal pattern). -/
def replaceFirst : List Char → List Char → List Char
  | [], _ => []
  | c :: rest, pat =>
    if pat.isPrefixOf (c :: rest) then (c :: rest).drop pat.length
    else c :: replaceFirst rest pat

/-- JavaScript `s.split("-")` on character lists. -/
def splitOnDash : List Char → List (List Char)
  | [] => [[]]
  | c :: rest =>
    match splitOnDash rest, decide (c = '-') with
    | r, true => [] :: r
    | [], false => [[c]]
    | h :: t, false => (c :: h) :: t

/-- Accumulate decimal digits, stopping at the first non-digit, as
`parseInt(s, 10)` does after its sign. -/
def parseDigits : List Char → Int → Int
  | [], n => n
  | c :: rest, n =>
    if c.isDigit then parseDigits rest (n * 10 + (Int.ofNat c.toNat - 48)) else n

/-- JavaScript `parseInt(s, 10)`: optional sign then leading decimal digits;
none models NaN (no digit after the optional sign, or empty input). Leading
whitespace handling is irrelevant to the header values the controller feeds
in. -/
def parseIntJS (s : List Char) : Option Int :=
  match s with
  | [] => none
  | c :: rest =>
    if c = '-' then
      match rest with
      | d :: _ => if d.isDigit then some (-(parseDigits rest 0)) else none
      | [] => none
    else if c = '+' then
      match rest with
      | d :: _ => if d.isDigit then some (parseDigits rest 0) else none
      | [] => none
    else if c.isDigit then some (parseDigits s 0) else none

/-- What the stream response writes to the socket. -/
inductive StreamBody where
  | errJson (msg : String)
  | hlsFile
  | wholeFile
  | fileSlice (startPos endPos : Int)
deriving DecidableEq, Repr

/-- Status and the headers/body facts of one VideoController.streamVideo
response. -/
structure StreamResponse where
  status : Nat
  contentType : Option String
  contentRange : Option String
  acceptRanges : Option String
  contentLength : Option Int
  body : StreamBody
deriving DecidableEq, Repr

/-- Number of bytes fs.createReadStream delivers for a body of an N-byte
file: the whole file, or the inclusive slice clamped to the last byte. -/
def servedBytes (body : StreamBody) (fileSize : Int) : Int :=
  match body with
  | .errJson _ => 0
  | .hlsFile => 0
  | .wholeFile => fileSize
  | .fileSlice s e => min e (fileSize - 1) - s + 1

namespace VideoController

/-- VideoController.streamVideo after the org-scoped video lookup succeeded.
hlsAvailable models `video.hlsPlaylistPath && fs.existsSync(...)`, fileExists
the existence of the original file, fileSize the fs.stat size, range the
request's range header. -/
def streamVideo (video : Video) (hlsAvailable fileExists : Bool)
    (fileSize : Int) (range : Option String) : StreamResponse :=
  if hlsAvailable then
    { status := 200, contentType := some "application/vnd.apple.mpegurl",
      contentRange := none, acceptRanges := none, contentLength := none, body := .hlsFile }
  else if !fileExists then
    { status := 404, contentType := none, contentRange := none,
      acceptRanges := none, contentLength := none, body := .errJson "Video file not found" }
  else
    match range with
    | some r =>
      let parts := splitOnDash (replaceFirst r.data "bytes=".data)
      let startVal := parseIntJS (parts.headD [])
      let endVal :=
        match parts.drop 1 with
        | p :: _ => if p.isEmpty then some (fileSize - 1) else parseIntJS p
        | [] => some (fileSize - 1)
      match startVal, endVal with
      | some s, some e =>
        let chunksize := (e - s) + 1
        { status := 206,
          contentType := some (video.mimeType.getD "video/mp4"),
          contentRange := some ("bytes " ++ toString s ++ "-" ++ toString e ++ "/" ++ toString fileSize),
          acceptRanges := some "bytes",
          contentLength := some chunksize,
          body := .fileSlice s e }
      | _, _ =>
        { status := 500, contentType := none, contentRange := none,
          acceptRanges := none, contentLength := none, body := .errJson "Failed to stream video" }
    | none =>
      { status := 200,
        contentType := some (video.mimeType.getD "video/mp4"),
        contentRange := none, acceptRanges := none,
        contentLength := some fileSize,
        body := .wholeFile }

end VideoController

namespace TranscodeService

/-- The resolutionMap of TranscodeService.transcodeVideo: width, height and
video bitrate (kbps, the value parseInt extracts from the "2500k"/"5000k"
strings) per resolution label. -/
def resolutionMap : String → Option (Int × Int × Int)
  | "720p" => some (1280, 720, 2500)
  | "1080p" => some (1920, 1080, 5000)
  | _ => none

/-- Output path `path.join(outputDir, videoId-resolution + ext)` of a
transcoded variant. -/
def outputPath (outputDir videoId resolution ext : String) : String :=
  outputDir ++ "/" ++ videoId ++ "-" ++ resolution ++ ext

/-- The unique-key predicate of the (videoId, resolution) compound key. -/
def matchesKey (videoId resolution : String) (tv : TranscodedVideo) : Bool :=
  tv.videoId == videoId && tv.resolution == resolution

/-- The prisma upsert that starts one variant's transcode: update the unique
(videoId, resolution) row to processing when it exists, otherwise create it
with fileSize 0 and status processing. -/
def upsertProcessing (rows : List TranscodedVideo) (videoId resolution fp : String) :
    List TranscodedVideo :=
  if rows.any (matchesKey videoId resolution) then
    rows.map (fun tv => if matchesKey videoId resolution tv then { tv with status := "processing" } else tv)
  else
    rows ++ [{ videoId := videoId, resolution := resolution, filePath := fp,
               fileSize := 0, status := "processing", codec := none, bitrate := none }]

/-- TranscodeService.transcodeVideo for one resolution. encode models the
ffmpeg run: some size means success with that output file size, none means
the ffmpeg promise rejected, in which case the catch block marks the row
failed and the function still returns (it never throws). -/
def transcodeVideo (outputDir : String) (rows : List TranscodedVideo)
    (videoId ext resolution : String) (encode : Option Int) :
    List TranscodedVideo × Bool :=
  let fp := outputPath outputDir videoId resolution ext
  let rows1 := upsertProcessing rows videoId resolution fp
  match resolutionMap resolution, encode with
  | some settings, some size =>
    (rows1.map (fun tv =>
        if matchesKey videoId resolution tv then
          { tv with fileSize := size, codec := some "libx264",
                    bitrate := some settings.2.2, status := "completed" }
        else tv),
     true)
  | _, _ =>
    (rows1.map (fun tv =>
        if matchesKey videoId resolution tv then { tv with status := "failed" } else tv),
     false)

/-- The per-video state the pipeline mutates: the parent Video's status,
duration and error message, the TranscodedVideo table, and the owning
organization's current-month usage row. -/
structure PipelineState where
  videoStatus : String
  videoDuration : Option ℚ
  errorMessage : Option String
  rows : List TranscodedVideo
  usage : Usage
deriving DecidableEq, Repr

/-- TranscodeService.transcodeToMultipleResolutions. probe models
getVideoMetadata: some duration on success (after the `|| 0` default), none
when probing throws, which lands in the catch block that marks the Video
failed. On the non-throwing path the code records minutes via
trackVideoUpload, transcodes 720p then 1080p (each swallowing its own
failure), and finally sets the Video status to completed. -/
def transcodeToMultipleResolutions (outputDir : String) (st : PipelineState)
    (videoId ext : String) (probe : Option ℚ) (encode : String → Option Int) :
    PipelineState :=
  let st1 := { st with videoStatus := "processing" }
  match probe with
  | none => { st1 with videoStatus := "failed", errorMessage := some "probe error" }
  | some duration =>
    let st2 := { st1 with videoDuration := some duration }
    let st3 := { st2 with usage := UsageService.trackVideoUpload st2.usage 0 (some duration) }
    let finalRows := ["720p", "1080p"].foldl
      (fun rows resolution => (transcodeVideo outputDir rows videoId ext resolution (encode resolution)).1)
      st3.rows
    { st3 with rows := finalRows, videoStatus := "completed" }

end TranscodeService

/-- Lowercase-hex character class [a-f0-9] of the API key regex. -/
def isHexLowerChar (c : Char) : Bool :=
  ('a' ≤ c && c ≤ 'f') || ('0' ≤ c && c ≤ '9')

/-- isValidApiKeyFormat of src/utils/apiKey.ts: the test of the anchored
regex vp_(live|test)_ followed by exactly 64 characters of [a-f0-9]. -/
def isValidApiKeyFormat (key : String) : Bool :=
  ("vp_live_".data.isPrefixOf key.data || "vp_test_".data.isPrefixOf key.data)
    && key.data.length == 72
    && (key.data.drop 8).all isHexLowerChar

/-- Hex digit character of a value below 16, lowercase as Buffer.toString
produces. -/
def hexDigitChar (n : Nat) : Char :=
  if n < 10 then Char.ofNat (48 + n) else Char.ofNat (87 + n)

/-- Two-character lowercase hex rendering of one byte. -/
def byteToHex (b : Nat) : List Char :=
  [hexDigitChar (b / 16), hexDigitChar (b % 16)]

/-- generateApiKey of src/utils/apiKey.ts as a function of the 32 random
bytes: vp_live_ plus their lowercase hex encoding. -/
def generateApiKey (bytes : List Nat) : String :=
  "vp_live_" ++ String.mk (bytes.map byteToHex).flatten

/-- The language the spec ascribes to the validator: a vp_live_ or vp_test_
literal followed by exactly 64 lowercase-hex characters. Stated from the
spec's words, to be compared with isValidApiKeyFormat. -/
def ApiKeySpec (s : String) : Prop :=
  ∃ rest : List Char,
    (s.data = "vp_live_".data ++ rest ∨ s.data = "vp_test_".data ++ rest)
    ∧ rest.length = 64 ∧ ∀ c ∈ rest, isHexLowerChar c = true

/-- The TranscodedVideo row one run of TranscodeService.transcodeVideo leaves
behind for a fresh (videoId, resolution) pair: completed with the measured
output size on encode success, failed with the created row's zero size on
encode failure. -/
def TranscodeService.variantRow (outputDir videoId ext resolution : String)
    (encode : Option Int) : TranscodedVideo :=
  match TranscodeService.resolutionMap resolution, encode with
  | some settings, some size =>
    { videoId := videoId, resolution := resolution,
      filePath := TranscodeService.outputPath outputDir videoId resolution ext,
      fileSize := size, status := "completed", codec := some "libx264",
      bitrate := some settings.2.2 }
  | _, _ =>
    { videoId := videoId, resolution := resolution,
      filePath := TranscodeService.outputPath outputDir videoId resolution ext,
      fileSize := 0, status := "failed", codec := none, bitrate := none }

/-- C1: for an organization whose resolved plan has videosPerMonth = -1,
canUploadVideo allows regardless of the current count; for a resolvable plan
with videosPerMonth different from -1, it allows exactly when the current
month's videosUploaded count is strictly below the limit. -/
theorem canUploadVideo_limit_semantics (o : Organization) (usage : Usage)
    (limits : UsageLimits) (hplan : PLAN_LIMITS o.plan = some limits) :
    (limits.videosPerMonth = -1 →
      (UsageService.canUploadVideo (some o) usage).allowed = true)
    ∧ (limits.videosPerMonth ≠ -1 →
        ((UsageService.canUploadVideo (some o) usage).allowed = true
          ↔ usage.videosUploaded < limits.videosPerMonth)) := by
  constructor
  · intro h
    simp [UsageService.canUploadVideo, hplan, h]
  · intro h
    simp only [UsageService.canUploadVideo, hplan]
    rw [if_neg h]
    by_cases hge : usage.videosUploaded ≥ limits.videosPerMonth
    · rw [if_pos hge]
      simp only [Bool.false_eq_true, false_iff]
      omega
    · rw [if_neg hge]
      simp only [true_iff]
      omega

/-- Witness for C1: a free-plan organization with 3 uploads this month is
allowed to upload (3 < 10). -/
theorem canUploadVideo_limit_semantics_witness :
    (UsageService.canUploadVideo (some ⟨"org1", "free"⟩) ⟨3, 0, 0, 0⟩).allowed = true :=
  ((canUploadVideo_limit_semantics ⟨"org1", "free"⟩ ⟨3, 0, 0, 0⟩
      { videosPerMonth := 10, minutesPerMonth := 60, storageGB := 5, apiCallsPerMonth := 1000 }
      (by decide)).2 (by decide)).mpr (by decide)

/-- C2: for a resolvable plan whose storageGB is not -1, hasStorageCapacity
denies exactly when storageUsed plus additionalBytes strictly exceeds
storageGB times 2 to the 30 bytes; storageGB = -1 always allows. -/
theorem hasStorageCapacity_threshold (o : Organization) (usage : Usage)
    (additionalBytes : Int) (limits : UsageLimits)
    (hplan : PLAN_LIMITS o.plan = some limits) :
    (limits.storageGB = -1 →
      (UsageService.hasStorageCapacity (some o) usage additionalBytes).allowed = true)
    ∧ (limits.storageGB ≠ -1 →
        ((UsageService.hasStorageCapacity (some o) usage additionalBytes).allowed = false
          ↔ usage.storageUsed + additionalBytes > limits.storageGB * 2 ^ 30)) := by
  have h2p30 : (1024 * 1024 * 1024 : Int) = 2 ^ 30 := by norm_num
  constructor
  · intro h
    simp [UsageService.hasStorageCapacity, hplan, h]
  · intro h
    simp only [UsageService.hasStorageCapacity, hplan]
    rw [if_neg h]
    by_cases hgt : usage.storageUsed + additionalBytes > limits.storageGB * (1024 * 1024 * 1024)
    · simp only [hgt, if_true]
      simp only [true_iff]
      rw [← h2p30]
      exact hgt
    · simp only [hgt, if_false]
      simp only [Bool.true_eq_false, false_iff]
      rw [← h2p30]
      exact hgt

/-- Witness for C2: a free-plan organization with 1 byte of headroom is
denied a 2-byte upload at exactly 5 GB. -/
theorem hasStorageCapacity_threshold_witness :
    (UsageService.hasStorageCapacity (some ⟨"org1", "free"⟩)
        ⟨0, 0, 5 * 2 ^ 30 - 1, 0⟩ 2).allowed = false :=
  ((hasStorageCapacity_threshold ⟨"org1", "free"⟩ ⟨0, 0, 5 * 2 ^ 30 - 1, 0⟩ 2
      { videosPerMonth := 10, minutesPerMonth := 60, storageGB := 5, apiCallsPerMonth := 1000 }
      (by decide)).2 (by decide)).mpr (by norm_num)

/-- C10: the hard-coded enforcement table PLAN_LIMITS diverges from the
billing catalog PLANS: enterprise storage is unenforced (-1, so
hasStorageCapacity always allows) though the catalog lists 500 GB; starter
and pro enforcement allows 100 and 1000 videos per month against catalog
values 50 and 200; and the (videosPerMonth, storageGB) pair agrees between
the two tables only for the free plan. -/
theorem plan_limits_diverge_from_catalog :
    (∀ (usage : Usage) (additionalBytes : Int),
        (UsageService.hasStorageCapacity (some ⟨"orgE", "enterprise"⟩) usage additionalBytes).allowed = true)
    ∧ ((PLANS "enterprise").map (fun p => p.limits.storageGB) = some 500
        ∧ (PLAN_LIMITS "enterprise").map (fun l => l.storageGB) = some (-1))
    ∧ ((PLAN_LIMITS "starter").map (fun l => l.videosPerMonth) = some 100
        ∧ (PLANS "starter").map (fun p => p.limits.videosPerMonth) = some 50
        ∧ (PLAN_LIMITS "pro").map (fun l => l.videosPerMonth) = some 1000
        ∧ (PLANS "pro").map (fun p => p.limits.videosPerMonth) = some 200)
    ∧ (∀ planId ∈ ["free", "starter", "pro", "enterprise"],
        ((PLAN_LIMITS planId).map (fun l => (l.videosPerMonth, l.storageGB))
            = (PLANS planId).map (fun p => (p.limits.videosPerMonth, p.limits.storageGB))
          ↔ planId = "free")) := by
  refine ⟨fun usage additionalBytes => rfl, by decide, by decide, by decide⟩

/-- Witness for C10: the enforcement and catalog tables agree on the free
plan's (videos, storage) pair, and the enterprise check allows a concrete
over-catalog usage level. -/
theorem plan_limits_diverge_from_catalog_witness :
    (PLAN_LIMITS "free").map (fun l => (l.videosPerMonth, l.storageGB))
        = (PLANS "free").map (fun p => (p.limits.videosPerMonth, p.limits.storageGB))
    ∧ (UsageService.hasStorageCapacity (some ⟨"orgE", "enterprise"⟩)
        ⟨0, 0, 600 * 2 ^ 30, 0⟩ 12345).allowed = true :=
  ⟨(plan_limits_diverge_from_catalog.2.2.2 "free" (by decide)).mpr rfl,
   plan_limits_diverge_from_catalog.1 ⟨0, 0, 600 * 2 ^ 30, 0⟩ 12345⟩

/-- C3: when either quota check rejects, the upload handler deletes the
already-written temporary file, answers 429 with the failing check's reason,
and creates no Video row; in particular a free-plan organization at 10
uploads this month gets a 429 whose message contains "limit reached" and no
Video row. -/
theorem uploadVideo_quota_rejection (organizationId : String) (org : Option Organization)
    (usage : Usage) (size : Int) :
    ((UsageService.canUploadVideo org usage).allowed = false →
      VideoController.uploadVideo true (some organizationId) org usage size =
        { status := 429, errorMsg := (UsageService.canUploadVideo org usage).reason,
          tempFileDeleted := true, videoCreated := false, usage := usage })
    ∧ ((UsageService.canUploadVideo org usage).allowed = true →
        (UsageService.hasStorageCapacity org usage size).allowed = false →
        VideoController.uploadVideo true (some organizationId) org usage size =
          { status := 429, errorMsg := (UsageService.hasStorageCapacity org usage size).reason,
            tempFileDeleted := true, videoCreated := false, usage := usage })
    ∧ (org = some ⟨organizationId, "free"⟩ → usage.videosUploaded = 10 →
        (VideoController.uploadVideo true (some organizationId) org usage size).status = 429
        ∧ (VideoController.uploadVideo true (some organizationId) org usage size).errorMsg
            = some "Monthly video upload limit reached (10 videos)"
        ∧ "limit reached".data <:+: "Monthly video upload limit reached (10 videos)".data
        ∧ (VideoController.uploadVideo true (some organizationId) org usage size).videoCreated = false) := by
  refine ⟨fun hcan => ?_, fun hcan hsto => ?_, fun horg h10 => ?_⟩
  · simp [VideoController.uploadVideo, hcan]
  · simp [VideoController.uploadVideo, hcan, hsto]
  · have hreject : UsageService.canUploadVideo org usage =
        { allowed := false, reason := some "Monthly video upload limit reached (10 videos)" } := by
      subst horg
      simp [UsageService.canUploadVideo, PLAN_LIMITS, h10]
      decide
    refine ⟨?_, ?_, ?_, ?_⟩
    · simp [VideoController.uploadVideo, hreject]
    · simp [VideoController.uploadVideo, hreject]
    · exact ⟨"Monthly video upload ".data, " (10 videos)".data, by decide⟩
    · simp [VideoController.uploadVideo, hreject]

/-- Witness for C3: the concrete 11th-upload attempt of a free-plan
organization at 10 uploads is rejected with status 429 and no Video row. -/
theorem uploadVideo_quota_rejection_witness :
    (VideoController.uploadVideo true (some "org1") (some ⟨"org1", "free"⟩) ⟨10, 0, 0, 0⟩ 5).status = 429
    ∧ (VideoController.uploadVideo true (some "org1") (some ⟨"org1", "free"⟩) ⟨10, 0, 0, 0⟩ 5).videoCreated
        = false :=
  have h := (uploadVideo_quota_rejection "org1" (some ⟨"org1", "free"⟩) ⟨10, 0, 0, 0⟩ 5).2.2
      rfl rfl
  ⟨h.1, h.2.2.2⟩

/-- C4: a successful delete removes the Video row and every TranscodedVideo
row referencing it, answers 200, and decrements the month's storageUsed by
exactly the original size plus the sum of the transcoded sizes, with no
clamping at zero. -/
theorem deleteVideo_cascades_and_decrements (db : DB) (organizationId : String) (v : Video)
    (hfind : VideoController.findFirstVideo db organizationId v.id = some v) :
    ((VideoController.deleteVideo db organizationId v.id).2 = 200)
    ∧ (∀ w ∈ (VideoController.deleteVideo db organizationId v.id).1.videos, ¬ w.id = v.id)
    ∧ (∀ tv ∈ (VideoController.deleteVideo db organizationId v.id).1.transcoded,
        ¬ tv.videoId = v.id)
    ∧ ((VideoController.deleteVideo db organizationId v.id).1.usage.storageUsed
        = db.usage.storageUsed
          - (v.fileSize
              + ((db.transcoded.filter (fun tv => tv.videoId == v.id)).map
                  (fun tv => tv.fileSize)).sum)) := by
  unfold VideoController.deleteVideo
  rw [hfind]
  refine ⟨rfl, ?_, ?_, rfl⟩
  · intro w hw
    have hmem := List.mem_filter.mp hw
    simpa using hmem.2
  · intro tv htv
    have hmem := List.mem_filter.mp htv
    simpa using hmem.2

/-- Witness for C4: deleting a 10-byte video with one 7-byte transcoded
variant from an organization whose counter holds 5 bytes drives storageUsed
to -12: the decrement is exact and unclamped. -/
theorem deleteVideo_cascades_and_decrements_witness :
    (VideoController.deleteVideo
        ⟨[⟨"vid1", "orgA", "/u/vid1", 10, none, "completed", none⟩],
         [⟨"vid1", "720p", "/o/vid1-720p", 7, "completed", some "libx264", some 2500⟩],
         ⟨2, 0, 5, 3⟩⟩ "orgA" "vid1").1.usage.storageUsed = 5 - (10 + 7) := by
  have h := (deleteVideo_cascades_and_decrements
      ⟨[⟨"vid1", "orgA", "/u/vid1", 10, none, "completed", none⟩],
       [⟨"vid1", "720p", "/o/vid1-720p", 7, "completed", some "libx264", some 2500⟩],
       ⟨2, 0, 5, 3⟩⟩ "orgA" ⟨"vid1", "orgA", "/u/vid1", 10, none, "completed", none⟩
      (by decide)).2.2.2
  simpa using h

/-- C5: a video-detail request authenticated as a different organization
than the owner finds nothing and answers 404, and any video the lookup does
return belongs to the requesting organization: the findFirst is always
filtered by the caller's organization id. -/
theorem getVideoById_tenant_isolation (db : DB) (orgA : String) (v : Video)
    (_hv : v ∈ db.videos) (hother : ¬ v.organizationId = orgA)
    (hunique : ∀ w ∈ db.videos, w.id = v.id → w = v) :
    VideoController.getVideoById db orgA v.id = none
    ∧ VideoController.getVideoByIdStatus db orgA v.id = 404
    ∧ (∀ (oid vid : String) (w : Video),
        VideoController.getVideoById db oid vid = some w → w.organizationId = oid ∧ w ∈ db.videos) := by
  have hnone : VideoController.getVideoById db orgA v.id = none := by
    unfold VideoController.getVideoById VideoController.findFirstVideo
    rw [List.find?_eq_none]
    intro x hx hpx
    simp only [Bool.and_eq_true, beq_iff_eq] at hpx
    have hxv : x = v := hunique x hx hpx.1
    rw [hxv] at hpx
    exact hother hpx.2
  refine ⟨hnone, ?_, ?_⟩
  · unfold VideoController.getVideoByIdStatus
    rw [hnone]
  · intro oid vid w hw
    unfold VideoController.getVideoById VideoController.findFirstVideo at hw
    have hp := List.find?_some hw
    simp only [Bool.and_eq_true, beq_iff_eq] at hp
    exact ⟨hp.2, List.mem_of_find?_eq_some hw⟩

/-- Witness for C5: organization orgA requesting orgB's video vid9 gets
nothing back. -/
theorem getVideoById_tenant_isolation_witness :
    VideoController.getVideoById
        ⟨[⟨"vid9", "orgB", "/u/vid9", 4, none, "completed", none⟩], [], ⟨0, 0, 0, 0⟩⟩
        "orgA" "vid9" = none :=
  (getVideoById_tenant_isolation
      ⟨[⟨"vid9", "orgB", "/u/vid9", 4, none, "completed", none⟩], [], ⟨0, 0, 0, 0⟩⟩
      "orgA" ⟨"vid9", "orgB", "/u/vid9", 4, none, "completed", none⟩
      (by decide) (by decide) (by decide)).1

/-- C7: with no HLS playlist available, a stream request with header
bytes=0-99 against an N-byte file gets 206, Content-Range bytes 0-99/N and
Content-Length 100, the served slice being exactly 100 bytes when the file
has at least 100; with no range header it gets 200, Content-Length N and the
whole file. -/
theorem streamVideo_range_semantics (video : Video) (N : Int) :
    (VideoController.streamVideo video false true N (some "bytes=0-99") =
      { status := 206, contentType := some (video.mimeType.getD "video/mp4"),
        contentRange := some ("bytes 0-99/" ++ toString N),
        acceptRanges := some "bytes", contentLength := some 100,
        body := .fileSlice 0 99 })
    ∧ (100 ≤ N → servedBytes (.fileSlice 0 99) N = 100)
    ∧ (VideoController.streamVideo video false true N none =
        { status := 200, contentType := some (video.mimeType.getD "video/mp4"),
          contentRange := none, acceptRanges := none, contentLength := some N,
          body := .wholeFile })
    ∧ servedBytes .wholeFile N = N := by
  refine ⟨rfl, fun hN => ?_, rfl, rfl⟩
  simp only [servedBytes]
  omega

/-- Witness for C7: the 100-byte slice of a concrete 1000-byte file. -/
theorem streamVideo_range_semantics_witness :
    servedBytes (.fileSlice 0 99) 1000 = 100
    ∧ (VideoController.streamVideo ⟨"vid1", "orgA", "/u/vid1", 1000, none, "completed", none⟩
        false true 1000 (some "bytes=0-99")).status = 206 :=
  ⟨(streamVideo_range_semantics ⟨"vid1", "orgA", "/u/vid1", 1000, none, "completed", none⟩ 1000).2.1
      (by norm_num),
   congrArg StreamResponse.status
      (streamVideo_range_semantics ⟨"vid1", "orgA", "/u/vid1", 1000, none, "completed", none⟩ 1000).1⟩

/-- Characters emitted by hexDigitChar on values below 16 land in the
[a-f0-9] class. -/
theorem hexLower_hexDigitChar (n : Nat) (hn : n < 16) :
    isHexLowerChar (hexDigitChar n) = true := by
  interval_cases n <;> decide

/-- Both characters of one byte's hex rendering are lowercase hex. -/
theorem byteToHex_all_hex (b : Nat) (hb : b < 256) :
    ∀ c ∈ byteToHex b, isHexLowerChar c = true := by
  intro c hc
  simp only [byteToHex, List.mem_cons, List.not_mem_nil, or_false] at hc
  rcases hc with h | h
  · rw [h]
    exact hexLower_hexDigitChar _ (Nat.div_lt_of_lt_mul (by omega))
  · rw [h]
    exact hexLower_hexDigitChar _ (Nat.mod_lt _ (by omega))

/-- The hex encoding of a byte list has two characters per byte. -/
theorem hexEncoding_length (bytes : List Nat) :
    ((bytes.map byteToHex).flatten).length = 2 * bytes.length := by
  induction bytes with
  | nil => rfl
  | cons b t ih =>
    simp only [List.map_cons, List.flatten_cons, List.length_append, List.length_cons, ih, byteToHex]
    simp only [List.length_cons, List.length_nil]
    omega

/-- Every character of the hex encoding of bytes below 256 is lowercase
hex. -/
theorem hexEncoding_all_hex (bytes : List Nat) (hb : ∀ b ∈ bytes, b < 256) :
    ∀ c ∈ (bytes.map byteToHex).flatten, isHexLowerChar c = true := by
  intro c hc
  rw [List.mem_flatten] at hc
  obtain ⟨l, hl, hcl⟩ := hc
  rw [List.mem_map] at hl
  obtain ⟨b, hbmem, rfl⟩ := hl
  exact byteToHex_all_hex b (hb b hbmem) c hcl

/-- C8: the key validator accepts exactly the strings of the spec's language
(vp_live_ or vp_test_ followed by 64 lowercase hex characters), every key
the generator builds from 32 bytes passes it, and vp_live_short fails it. -/
theorem apiKey_format_correct :
    (∀ s : String, isValidApiKeyFormat s = true ↔ ApiKeySpec s)
    ∧ (∀ bytes : List Nat, bytes.length = 32 → (∀ b ∈ bytes, b < 256) →
        isValidApiKeyFormat (generateApiKey bytes) = true)
    ∧ isValidApiKeyFormat "vp_live_short" = false := by
  have hiff : ∀ s : String, isValidApiKeyFormat s = true ↔ ApiKeySpec s := by
    intro s
    simp only [isValidApiKeyFormat, Bool.and_eq_true, Bool.or_eq_true,
      List.isPrefixOf_iff_prefix, beq_iff_eq, List.all_eq_true]
    constructor
    · rintro ⟨⟨hor, hlen⟩, hall⟩
      rcases hor with ⟨t, ht⟩ | ⟨t, ht⟩
      · have hdrop : s.data.drop 8 = t := by
          rw [← ht]
          exact List.drop_left' (by decide)
        have h8 : ("vp_live_".data).length = 8 := by decide
        refine ⟨t, Or.inl ht.symm, ?_, ?_⟩
        · rw [← ht, List.length_append, h8] at hlen
          omega
        · rw [← hdrop]
          exact hall
      · have hdrop : s.data.drop 8 = t := by
          rw [← ht]
          exact List.drop_left' (by decide)
        have h8 : ("vp_test_".data).length = 8 := by decide
        refine ⟨t, Or.inr ht.symm, ?_, ?_⟩
        · rw [← ht, List.length_append, h8] at hlen
          omega
        · rw [← hdrop]
          exact hall
    · rintro ⟨rest, hor, hlen, hhex⟩
      rcases hor with hor | hor
      · refine ⟨⟨Or.inl ⟨rest, hor.symm⟩, ?_⟩, ?_⟩
        · rw [hor, List.length_append, hlen]
          decide
        · have hdrop : ("vp_live_".data ++ rest).drop 8 = rest := List.drop_left' (by decide)
          rw [hor, hdrop]
          exact hhex
      · refine ⟨⟨Or.inr ⟨rest, hor.symm⟩, ?_⟩, ?_⟩
        · rw [hor, List.length_append, hlen]
          decide
        · have hdrop : ("vp_test_".data ++ rest).drop 8 = rest := List.drop_left' (by decide)
          rw [hor, hdrop]
          exact hhex
  refine ⟨hiff, ?_, by decide⟩
  intro bytes hlen hb
  rw [hiff]
  refine ⟨(bytes.map byteToHex).flatten, Or.inl rfl, ?_, hexEncoding_all_hex bytes hb⟩
  rw [hexEncoding_length, hlen]

/-- Witness for C8: the key generated from 32 zero bytes (64 zeros of hex)
passes format validation. -/
theorem apiKey_format_correct_witness :
    isValidApiKeyFormat (generateApiKey (List.replicate 32 0)) = true :=
  apiKey_format_correct.2.1 (List.replicate 32 0) (by decide) (by decide)

/-- Mapping a keyed update over rows of which none satisfies the key leaves
every row unchanged. -/
theorem map_keyed_update_of_no_match (p : TranscodedVideo → Bool)
    (f : TranscodedVideo → TranscodedVideo) :
    ∀ rows : List TranscodedVideo, (∀ tv ∈ rows, p tv = false) →
      rows.map (fun tv => if p tv then f tv else tv) = rows := by
  intro rows
  induction rows with
  | nil => intro _; rfl
  | cons a t ih =>
    intro h
    have ha : p a = false := h a (by simp)
    rw [List.map_cons, if_neg (by simp [ha]), ih (fun tv htv => h tv (by simp [htv]))]

/-- transcodeVideo on a table holding no row for the (videoId, resolution)
key appends exactly one row for that key, shaped by the encode outcome. -/
theorem transcodeVideo_fresh_append (outputDir : String) (rows : List TranscodedVideo)
    (videoId ext resolution : String) (encode : Option Int)
    (h : ∀ tv ∈ rows, TranscodeService.matchesKey videoId resolution tv = false) :
    (TranscodeService.transcodeVideo outputDir rows videoId ext resolution encode).1 =
      rows ++ [TranscodeService.variantRow outputDir videoId ext resolution encode] := by
  have hany : rows.any (TranscodeService.matchesKey videoId resolution) = false :=
    List.any_eq_false.mpr (by intro x hx; simp [h x hx])
  have hmapfresh : ∀ g : TranscodedVideo → TranscodedVideo,
      rows.map (fun tv => if tv.videoId == videoId && tv.resolution == resolution then g tv else tv)
        = rows :=
    fun g => map_keyed_update_of_no_match _ g rows
      (by intro tv htv; simpa [TranscodeService.matchesKey] using h tv htv)
  simp only [TranscodeService.transcodeVideo, TranscodeService.upsertProcessing, hany,
    Bool.false_eq_true, if_false]
  rcases hm : TranscodeService.resolutionMap resolution with _ | settings
    <;> rcases encode with _ | size
    <;> simp only [TranscodeService.variantRow, hm, List.map_append, hmapfresh, List.map_cons,
          List.map_nil, TranscodeService.matchesKey, beq_self_eq_true, Bool.and_self, if_true]

/-- The row left for a fresh pair carries the requested resolution label and
video id, whatever the encode outcome was. -/
theorem variantRow_key (outputDir videoId ext resolution : String) (encode : Option Int) :
    (TranscodeService.variantRow outputDir videoId ext resolution encode).videoId = videoId
    ∧ (TranscodeService.variantRow outputDir videoId ext resolution encode).resolution
        = resolution := by
  unfold TranscodeService.variantRow
  rcases TranscodeService.resolutionMap resolution with _ | settings
    <;> rcases encode with _ | size
    <;> exact ⟨rfl, rfl⟩

/-- C6: on a run with no orchestration-level exception, the pipeline ends
with the Video completed and exactly one TranscodedVideo row per configured
resolution (720p then 1080p); a resolution whose encode succeeds leaves its
row completed with the measured size, a resolution whose encode fails leaves
its row alone failed, and the following resolution is still processed. -/
theorem transcode_pipeline_per_resolution (outputDir : String)
    (st : TranscodeService.PipelineState) (videoId ext : String) (d : ℚ)
    (encode : String → Option Int)
    (hfresh : ∀ tv ∈ st.rows, (tv.videoId == videoId) = false) :
    ((TranscodeService.transcodeToMultipleResolutions outputDir st videoId ext (some d) encode).videoStatus
        = "completed")
    ∧ ((TranscodeService.transcodeToMultipleResolutions outputDir st videoId ext (some d) encode).rows.filter
          (fun tv => tv.videoId == videoId)
        = [TranscodeService.variantRow outputDir videoId ext "720p" (encode "720p"),
           TranscodeService.variantRow outputDir videoId ext "1080p" (encode "1080p")])
    ∧ (∀ s : Int, encode "720p" = some s →
        (TranscodeService.variantRow outputDir videoId ext "720p" (encode "720p")).status = "completed"
        ∧ (TranscodeService.variantRow outputDir videoId ext "720p" (encode "720p")).fileSize = s)
    ∧ (encode "720p" = none →
        (TranscodeService.variantRow outputDir videoId ext "720p" (encode "720p")).status = "failed")
    ∧ (∀ s : Int, encode "1080p" = some s →
        (TranscodeService.variantRow outputDir videoId ext "1080p" (encode "1080p")).status = "completed"
        ∧ (TranscodeService.variantRow outputDir videoId ext "1080p" (encode "1080p")).fileSize = s)
    ∧ (encode "1080p" = none →
        (TranscodeService.variantRow outputDir videoId ext "1080p" (encode "1080p")).status = "failed") := by
  have h720 : ∀ tv ∈ st.rows, TranscodeService.matchesKey videoId "720p" tv = false := by
    intro tv htv
    simp [TranscodeService.matchesKey, hfresh tv htv]
  have hrows1 := transcodeVideo_fresh_append outputDir st.rows videoId ext "720p" (encode "720p") h720
  have hkey720 := variantRow_key outputDir videoId ext "720p" (encode "720p")
  have hkey1080 := variantRow_key outputDir videoId ext "1080p" (encode "1080p")
  have h1080 : ∀ tv ∈ st.rows ++ [TranscodeService.variantRow outputDir videoId ext "720p" (encode "720p")],
      TranscodeService.matchesKey videoId "1080p" tv = false := by
    intro tv htv
    rcases List.mem_append.mp htv with hmem | hmem
    · simp [TranscodeService.matchesKey, hfresh tv hmem]
    · simp only [List.mem_singleton] at hmem
      rw [hmem]
      simp [TranscodeService.matchesKey, hkey720.2]
  have hrows2 := transcodeVideo_fresh_append outputDir
      (st.rows ++ [TranscodeService.variantRow outputDir videoId ext "720p" (encode "720p")])
      videoId ext "1080p" (encode "1080p") h1080
  have hfilter0 : st.rows.filter (fun tv => tv.videoId == videoId) = [] :=
    List.filter_eq_nil_iff.mpr (by intro tv htv; simp [hfresh tv htv])
  refine ⟨?_, ?_, ?_, ?_, ?_, ?_⟩
  · simp [TranscodeService.transcodeToMultipleResolutions]
  · simp only [TranscodeService.transcodeToMultipleResolutions, List.foldl_cons, List.foldl_nil]
    rw [hrows1, hrows2]
    simp [List.filter_append, hfilter0, hkey720.1, hkey1080.1]
  · intro s hs
    simp [TranscodeService.variantRow, TranscodeService.resolutionMap, hs]
  · intro hs
    simp [TranscodeService.variantRow, TranscodeService.resolutionMap, hs]
  · intro s hs
    simp [TranscodeService.variantRow, TranscodeService.resolutionMap, hs]
  · intro hs
    simp [TranscodeService.variantRow, TranscodeService.resolutionMap, hs]

/-- Witness for C6: a fresh video whose 720p encode succeeds at 111 bytes
and whose 1080p encode fails ends with exactly one completed 720p row and
one failed 1080p row. -/
theorem transcode_pipeline_per_resolution_witness :
    (TranscodeService.transcodeToMultipleResolutions "out"
        ⟨"pending", none, none, [], ⟨0, 0, 0, 0⟩⟩ "vid" ".mp4" (some 30)
        (fun r => if r = "720p" then some 111 else none)).rows.filter
      (fun tv => tv.videoId == "vid")
    = [⟨"vid", "720p", "out/vid-720p.mp4", 111, "completed", some "libx264", some 2500⟩,
       ⟨"vid", "1080p", "out/vid-1080p.mp4", 0, "failed", none, none⟩] := by
  have h := (transcode_pipeline_per_resolution "out"
      ⟨"pending", none, none, [], ⟨0, 0, 0, 0⟩⟩ "vid" ".mp4" 30
      (fun r => if r = "720p" then some 111 else none) (by simp)).2.1
  rw [h]
  decide

/-- C9: the pipeline's minutes-recording step is the same trackVideoUpload
operation the upload handler calls, so it also bumps videosUploaded by 1
(and storage by 0); an accepted upload whose pipeline reaches that step
therefore raises the month's videosUploaded by 2 in total, not 1. -/
theorem pipeline_reuses_trackVideoUpload (outputDir : String)
    (st : TranscodeService.PipelineState) (videoId ext organizationId : String)
    (d : ℚ) (encode : String → Option Int) (org : Option Organization)
    (usage : Usage) (size : Int)
    (hcreated : (VideoController.uploadVideo true (some organizationId) org usage size).videoCreated
        = true) :
    (∀ u : Usage,
        (UsageService.trackVideoUpload u 0 (some d)).videosUploaded = u.videosUploaded + 1
        ∧ (UsageService.trackVideoUpload u 0 (some d)).storageUsed = u.storageUsed)
    ∧ (TranscodeService.transcodeToMultipleResolutions outputDir
          { st with usage := (VideoController.uploadVideo true (some organizationId) org usage size).usage }
          videoId ext (some d) encode).usage.videosUploaded
        = usage.videosUploaded + 2 := by
  have htrack : ∀ u : Usage,
      (UsageService.trackVideoUpload u 0 (some d)).videosUploaded = u.videosUploaded + 1
      ∧ (UsageService.trackVideoUpload u 0 (some d)).storageUsed = u.storageUsed := by
    intro u
    constructor
    · rfl
    · simp [UsageService.trackVideoUpload]
  refine ⟨htrack, ?_⟩
  have hupload : (VideoController.uploadVideo true (some organizationId) org usage size).usage
      = UsageService.trackVideoUpload usage size none := by
    unfold VideoController.uploadVideo at hcreated ⊢
    by_cases hcan : (UsageService.canUploadVideo org usage).allowed
    · by_cases hsto : (UsageService.hasStorageCapacity org usage size).allowed
      · simp [hcan, hsto]
      · simp [hcan, hsto] at hcreated
    · simp [hcan] at hcreated
  have hpipe : (TranscodeService.transcodeToMultipleResolutions outputDir
      { st with usage := (VideoController.uploadVideo true (some organizationId) org usage size).usage }
      videoId ext (some d) encode).usage
      = UsageService.trackVideoUpload
          (VideoController.uploadVideo true (some organizationId) org usage size).usage 0 (some d) := by
    simp [TranscodeService.transcodeToMultipleResolutions]
  rw [hpipe, (htrack _).1, hupload]
  show (usage.videosUploaded + 1) + 1 = usage.videosUploaded + 2
  omega

/-- Witness for C9: a fresh free-plan organization uploading one 5-byte
video sees videosUploaded reach 2 once processing records the minutes. -/
theorem pipeline_reuses_trackVideoUpload_witness :
    (TranscodeService.transcodeToMultipleResolutions "out"
        { videoStatus := "pending", videoDuration := none, errorMessage := none, rows := [],
          usage := (VideoController.uploadVideo true (some "org1") (some ⟨"org1", "free"⟩)
              ⟨0, 0, 0, 0⟩ 5).usage }
        "vid" ".mp4" (some 30) (fun _ => none)).usage.videosUploaded = 0 + 2 :=
  (pipeline_reuses_trackVideoUpload "out"
      ⟨"pending", none, none, [], ⟨999, 999, 999, 999⟩⟩ "vid" ".mp4" "org1" 30
      (fun _ => none) (some ⟨"org1", "free"⟩) ⟨0, 0, 0, 0⟩ 5 (by decide)).2

end VideoProc
